import Mathlib

/-!
Verification of the devMedia backend's aggregate mutation logic.

The definitions below are a shallow embedding of the Express route
handlers in `src/routes/api/posts.js` and `src/routes/api/profile.js`.
User ids and sub-entry ids are modelled as `Nat`; the document store is
modelled as a list of documents; HTTP responses are modelled by a
`Response` type carrying the status code and message the handler sends.
Mongoose `findById` can either find a document, find nothing, or throw a
cast error on a structurally invalid identifier (`err.kind ===
"ObjectId"`); this trichotomy is modelled by `FindResult`.
-/

namespace DevMedia

/-- An HTTP-level outcome: either a JSON payload with status 200, or an
error response with a status code and message, as sent by the handlers. -/
inductive Response (α : Type) where
  | ok (value : α)
  | err (status : Nat) (msg : String)
deriving Repr, DecidableEq

/-- A like sub-entry: `{ user: req.user.id }` (posts.js line 122). -/
structure Like where
  user : Nat
deriving Repr, DecidableEq

/-- A comment sub-entry: `{text, name, avatar, user}` plus the
store-generated identity `id` (posts.js lines 187-192). -/
structure Comment where
  id : Nat
  text : String
  name : String
  avatar : String
  user : Nat
deriving Repr, DecidableEq

/-- A Post document: `text, name, avatar, user, date` plus the embedded
`likes` and `comments` collections (models/Post via posts.js usage). -/
structure Post where
  id : Nat
  text : String
  name : String
  avatar : String
  user : Nat
  date : Nat
  likes : List Like
  comments : List Comment
deriving Repr, DecidableEq

/-- A request identifier as it arrives in `req.params`: `valid` is false
when the string is not a structurally valid ObjectId, in which case
`findById` throws a cast error with `err.kind === "ObjectId"`. -/
structure Ident where
  valid : Bool
  val : Nat
deriving Repr, DecidableEq

/-- Outcome of `Model.findById`: a document, `null`, or a thrown
ObjectId cast error. -/
inductive FindResult (α : Type) where
  | found (a : α)
  | missing
  | castError
deriving Repr, DecidableEq

/-- `Post.findById(req.params.id)` over the post collection. -/
def findById (db : List Post) (i : Ident) : FindResult Post :=
  if i.valid then
    match db.find? (fun p => p.id == i.val) with
    | some p => .found p
    | none => .missing
  else .castError

/-- GET /api/posts/:id (posts.js lines 66-82): 404 when the post is
`null` and 404 again in the catch block when `err.kind === "ObjectId"`. -/
def getPostHandler (db : List Post) (i : Ident) : Response Post :=
  match findById db i with
  | .found p => .ok p
  | .missing => .err 404 "Post not Found."
  | .castError => .err 404 "Post not Found."

/-- DELETE /api/posts/:id (posts.js lines 87-107): 404 when missing or
cast error, 401 when `post.user.toString() !== req.user.id`, otherwise
`post.remove()` deletes the document. -/
def deletePostHandler (uid : Nat) (db : List Post) (i : Ident) :
    Response String × List Post :=
  match findById db i with
  | .found p =>
    if p.user != uid then (.err 401 "User not Authorized to Delete.", db)
    else (.ok "Post Removed.", db.eraseP (fun q => q.id == p.id))
  | .missing => (.err 404 "Post not Found.", db)
  | .castError => (.err 404 "Post not Found.", db)

/-- The body of PUT /api/posts/like/:id once the post is in hand
(posts.js lines 116-126): reject with 400 when a like by `req.user.id`
already exists, otherwise `unshift({user})` and return `post.likes`. -/
def likePost (uid : Nat) (p : Post) : Response (List Like) × Post :=
  if (p.likes.filter (fun l => l.user == uid)).length > 0 then
    (.err 400 "Post is already liked.", p)
  else
    let p2 := { p with likes := ⟨uid⟩ :: p.likes }
    (.ok p2.likes, p2)

/-- The body of PUT /api/posts/unlike/:id once the post is in hand
(posts.js lines 140-156): reject with 400 when no like by `req.user.id`
exists, otherwise `splice` out the index found by
`likes.map(l => l.user.toString()).indexOf(req.user.id)`. -/
def unlikePost (uid : Nat) (p : Post) : Response (List Like) × Post :=
  if (p.likes.filter (fun l => l.user == uid)).length == 0 then
    (.err 400 "Post is not liked yet.", p)
  else
    let rmvIdx := (p.likes.map (fun l => l.user)).indexOf uid
    let p2 := { p with likes := p.likes.eraseIdx rmvIdx }
    (.ok p2.likes, p2)

/-- PUT /api/posts/like/:id (posts.js lines 112-131): the handler has no
null check and no ObjectId branch in its catch, so a missing post (null
dereference of `post.likes`) and a cast error both land in the generic
500 response. -/
def likeHandler (uid : Nat) (db : List Post) (i : Ident) :
    Response (List Like) × List Post :=
  match findById db i with
  | .found p =>
    let r := likePost uid p
    (r.1, db.map (fun q => if q.id == p.id then r.2 else q))
  | .missing => (.err 500 "Server Error.", db)
  | .castError => (.err 500 "Server Error.", db)

/-- PUT /api/posts/unlike/:id (posts.js lines 136-161): same null-check
and catch structure as the like handler. -/
def unlikeHandler (uid : Nat) (db : List Post) (i : Ident) :
    Response (List Like) × List Post :=
  match findById db i with
  | .found p =>
    let r := unlikePost uid p
    (r.1, db.map (fun q => if q.id == p.id then r.2 else q))
  | .missing => (.err 500 "Server Error.", db)
  | .castError => (.err 500 "Server Error.", db)

/-- The body of DELETE /api/posts/comment/:id/:comm_id once the post is
in hand (posts.js lines 213-233): find the comment by `comm_id`, 404 if
absent, 401 if its author is not `req.user.id`, then splice out the
index found by `comments.map(c => c.user.toString()).indexOf(req.user.id)`
— the first comment by that AUTHOR, not the comment found by id. -/
def deleteCommentOnPost (uid : Nat) (commId : Nat) (p : Post) :
    Response (List Comment) × Post :=
  match p.comments.find? (fun c => c.id == commId) with
  | none => (.err 404 "Comment does not Exist.", p)
  | some comment =>
    if comment.user != uid then (.err 401 "User not Authorized.", p)
    else
      let rmvIdx := (p.comments.map (fun c => c.user)).indexOf uid
      let p2 := { p with comments := p.comments.eraseIdx rmvIdx }
      (.ok p2.comments, p2)

/-- JS truthiness of an optional string request-body field: absent and
the empty string are both falsy, so `if (field) ...` skips them. -/
def truthy : Option String → Bool
  | none => false
  | some s => !(s == "")

/-- The `social` sub-record of a Profile (optional URLs). -/
structure Social where
  youtube : Option String
  facebook : Option String
  twitter : Option String
  instagram : Option String
  linkedin : Option String
deriving Repr, DecidableEq

/-- An experience sub-entry (profile.js lines 209-217); `fromDate`
models the `from` field. -/
structure Experience where
  id : Nat
  title : String
  company : String
  location : Option String
  fromDate : String
  toDate : Option String
  current : Option Bool
  description : Option String
deriving Repr, DecidableEq

/-- A Profile document (models/Profile via profile.js usage). -/
structure Profile where
  user : Nat
  company : Option String
  website : Option String
  location : Option String
  bio : Option String
  status : Option String
  githubusername : Option String
  skills : List String
  social : Social
  experience : List Experience
deriving Repr, DecidableEq

/-- The request body of POST /api/profile. Each field is `none` when
absent from the request. -/
structure ProfileBody where
  company : Option String
  website : Option String
  location : Option String
  bio : Option String
  status : Option String
  githubusername : Option String
  skills : Option String
  youtube : Option String
  facebook : Option String
  twitter : Option String
  instagram : Option String
  linkedin : Option String
deriving Repr, DecidableEq

/-- JS `String.prototype.split(",")` over the character list: pieces
between commas, empty pieces kept, one (possibly empty) piece when no
comma occurs. -/
def splitComma : List Char → List Char → List (List Char)
  | [], acc => [acc.reverse]
  | c :: cs, acc =>
    if c = ',' then acc.reverse :: splitComma cs []
    else splitComma cs (c :: acc)

/-- JS `String.prototype.trim()` over the character list: drop leading
and trailing whitespace. -/
def trimChars (l : List Char) : List Char :=
  ((l.dropWhile Char.isWhitespace).reverse.dropWhile Char.isWhitespace).reverse

/-- `skills.split(",").map(skill => skill.trim())` (profile.js line 88). -/
def normalizeSkills (s : String) : List String :=
  (splitComma s.data []).map (fun cs => String.mk (trimChars cs))

/-- The `profileFields` object assembled by the upsert handler
(profile.js lines 78-97): a key is present only when the body field is
truthy, except `social`, which is always assigned (possibly empty). -/
structure ProfileFields where
  user : Nat
  company : Option String
  website : Option String
  location : Option String
  bio : Option String
  status : Option String
  githubusername : Option String
  skills : Option (List String)
  social : Social
deriving Repr, DecidableEq

/-- Build `profileFields` from the request body (profile.js lines 78-97). -/
def buildProfileFields (uid : Nat) (b : ProfileBody) : ProfileFields :=
  { user := uid
    company := if truthy b.company then b.company else none
    website := if truthy b.website then b.website else none
    location := if truthy b.location then b.location else none
    bio := if truthy b.bio then b.bio else none
    status := if truthy b.status then b.status else none
    githubusername := if truthy b.githubusername then b.githubusername else none
    skills :=
      match b.skills with
      | some s => if s == "" then none else some (normalizeSkills s)
      | none => none
    social :=
      { youtube := if truthy b.youtube then b.youtube else none
        facebook := if truthy b.facebook then b.facebook else none
        twitter := if truthy b.twitter then b.twitter else none
        instagram := if truthy b.instagram then b.instagram else none
        linkedin := if truthy b.linkedin then b.linkedin else none } }

/-- MongoDB `$set` applied to an existing Profile (profile.js lines
104-108): every key present in `profileFields` overwrites the stored
field; keys absent from `profileFields` are left as they were. The
`social` key is always present, so the whole `social` sub-record is
overwritten. -/
def applySet (prof : Profile) (f : ProfileFields) : Profile :=
  { prof with
    user := f.user
    company := match f.company with | some c => some c | none => prof.company
    website := match f.website with | some c => some c | none => prof.website
    location := match f.location with | some c => some c | none => prof.location
    bio := match f.bio with | some c => some c | none => prof.bio
    status := match f.status with | some c => some c | none => prof.status
    githubusername :=
      match f.githubusername with
      | some c => some c
      | none => prof.githubusername
    skills := match f.skills with | some l => l | none => prof.skills
    social := f.social }

/-- `new Profile(profileFields)` (profile.js line 114). -/
def createProfile (f : ProfileFields) : Profile :=
  { user := f.user
    company := f.company
    website := f.website
    location := f.location
    bio := f.bio
    status := f.status
    githubusername := f.githubusername
    skills := f.skills.getD []
    social := f.social
    experience := [] }

/-- Replace the first element satisfying `p` by `f` of it. Models
`Profile.findOneAndUpdate` on a store holding the documents in order. -/
def updateFirst (p : α → Bool) (f : α → α) : List α → List α
  | [] => []
  | a :: as => if p a then f a :: as else a :: updateFirst p f as

/-- POST /api/profile (profile.js lines 44-123): validation rejects a
missing or empty `status` or `skills`; then the handler updates the
profile found by `{user: req.user.id}` with `$set: profileFields`, or
creates a new one when none exists. -/
def upsertProfile (uid : Nat) (b : ProfileBody) (profiles : List Profile) :
    Response Profile × List Profile :=
  if !(truthy b.status) || !(truthy b.skills) then
    (.err 400 "Validation failed.", profiles)
  else
    let f := buildProfileFields uid b
    match profiles.find? (fun p => p.user == uid) with
    | some prof =>
      (.ok (applySet prof f),
       updateFirst (fun p => p.user == uid) (fun p => applySet p f) profiles)
    | none =>
      (.ok (createProfile f), profiles ++ [createProfile f])

/-- The body of an experience entry in PUT /api/profile/experience. -/
structure ExperienceBody where
  title : Option String
  company : Option String
  location : Option String
  fromDate : Option String
  toDate : Option String
  current : Option Bool
  description : Option String
deriving Repr, DecidableEq

/-- PUT /api/profile/experience (profile.js lines 177-231): validation
requires non-empty `title`, `company`, `from`; then the principal's own
profile is loaded and the new entry is `unshift`ed onto `experience`.
When the principal has no profile, `profile.experience` dereferences
null and the catch block answers 500. `newId` models the identity the
store assigns to the new sub-document. -/
def addExperienceHandler (uid : Nat) (b : ExperienceBody) (newId : Nat)
    (profiles : List Profile) : Response Profile × List Profile :=
  if !(truthy b.title) || !(truthy b.company) || !(truthy b.fromDate) then
    (.err 400 "Validation failed.", profiles)
  else
    match profiles.find? (fun p => p.user == uid) with
    | none => (.err 500 "Server Error.", profiles)
    | some prof =>
      let newExp : Experience :=
        { id := newId
          title := b.title.getD ""
          company := b.company.getD ""
          location := b.location
          fromDate := b.fromDate.getD ""
          toDate := b.toDate
          current := b.current
          description := b.description }
      let prof2 := { prof with experience := newExp :: prof.experience }
      (.ok prof2,
       updateFirst (fun p => p.user == uid) (fun _ => prof2) profiles)

/-! ### Helper lemmas -/

/-- Splicing out the index returned by `map(f).indexOf(u)` removes
exactly the first element whose `f`-value is `u`, provided one exists:
the JS idiom `arr.splice(arr.map(f).indexOf(u), 1)`. -/
theorem eraseIdx_indexOf_spine {α : Type} (f : α → Nat) (u : Nat) (l : List α)
    (h : ∃ a ∈ l, f a = u) :
    ∃ pre x suf, l = pre ++ x :: suf ∧ (∀ b ∈ pre, f b ≠ u) ∧ f x = u ∧
      l.eraseIdx ((l.map f).indexOf u) = pre ++ suf := by
  induction l with
  | nil => simp at h
  | cons a as ih =>
    by_cases ha : f a = u
    · refine ⟨[], a, as, rfl, by simp, ha, ?_⟩
      simp [List.indexOf_cons, ha, List.eraseIdx]
    · obtain ⟨b, hb, hbu⟩ := h
      rcases List.mem_cons.mp hb with hb | hb
      · exact absurd (hb ▸ hbu) ha
      · obtain ⟨pre, x, suf, hl, hpre, hx, herase⟩ := ih ⟨b, hb, hbu⟩
        refine ⟨a :: pre, x, suf, by rw [hl, List.cons_append], ?_, hx, ?_⟩
        · intro c hc
          rcases List.mem_cons.mp hc with hc | hc
          · exact hc ▸ ha
          · exact hpre c hc
        · have hidx : ((a :: as).map f).indexOf u = ((as.map f).indexOf u) + 1 := by
            simp [List.indexOf_cons, ha]
          rw [hidx, List.eraseIdx_cons_succ, herase, List.cons_append]

/-! ### C1, C2: comment deletion -/

/-- C1: when delete-comment succeeds, the entry removed from `comments`
is the first entry whose author equals the principal's id — which need
not be the entry identified by `commId`. -/
theorem deleteComment_removes_first_by_author (uid commId : Nat) (p : Post)
    (cs : List Comment) (p2 : Post)
    (h : deleteCommentOnPost uid commId p = (.ok cs, p2)) :
    ∃ pre c suf, p.comments = pre ++ c :: suf ∧ (∀ b ∈ pre, b.user ≠ uid) ∧
      c.user = uid ∧ p2.comments = pre ++ suf ∧ cs = pre ++ suf := by
  cases hfind : p.comments.find? (fun c => c.id == commId) with
  | none =>
    simp only [deleteCommentOnPost, hfind] at h
    exact absurd h (by simp)
  | some comment =>
    simp only [deleteCommentOnPost, hfind] at h
    by_cases hc : comment.user = uid
    · rw [if_neg (by simp [hc])] at h
      have h1 := congrArg Prod.fst h
      have h2 := congrArg Prod.snd h
      simp only at h1 h2
      obtain ⟨pre, x, suf, hl, hpre, hx, herase⟩ :=
        eraseIdx_indexOf_spine (fun c => c.user) uid p.comments
          ⟨comment, List.mem_of_find?_eq_some hfind, hc⟩
      refine ⟨pre, x, suf, hl, hpre, hx, ?_, ?_⟩
      · rw [← h2]
        exact herase
      · have hcs : Response.ok
            (p.comments.eraseIdx
              ((p.comments.map (fun c => c.user)).indexOf uid)) =
            Response.ok cs := h1
        rw [← Response.ok.injEq .. |>.mp hcs]
        exact herase
    · rw [if_pos (by simpa using hc)] at h
      exact absurd h (by simp)

/-- Concrete post for the comment-deletion scenarios: owner 7, two
comments by author 7 (ids 1 and 2) and one by author 9 (id 3). -/
def cPost : Post :=
  { id := 100, text := "hello", name := "A", avatar := "a", user := 7
    date := 0
    likes := []
    comments :=
      [ { id := 1, text := "first", name := "A", avatar := "a", user := 7 }
      , { id := 2, text := "second", name := "A", avatar := "a", user := 7 }
      , { id := 3, text := "third", name := "B", avatar := "b", user := 9 } ] }

/-- Witness for C1: principal 7 deletes comment 2, yet the entry removed
is comment 1 (the first authored by 7). -/
theorem deleteComment_removes_first_by_author_witness :
    ∃ pre c suf, cPost.comments = pre ++ c :: suf ∧ (∀ b ∈ pre, b.user ≠ 7) ∧
      c.user = 7 ∧
      ((deleteCommentOnPost 7 2 cPost).2).comments = pre ++ suf ∧
      ((deleteCommentOnPost 7 2 cPost).1 =
        .ok ((deleteCommentOnPost 7 2 cPost).2).comments) ∧
      (∃ kept ∈ ((deleteCommentOnPost 7 2 cPost).2).comments, kept.id = 2) := by
  obtain ⟨pre, c, suf, h1, h2, h3, h4, h5⟩ :=
    deleteComment_removes_first_by_author 7 2 cPost
      ((deleteCommentOnPost 7 2 cPost).2).comments
      ((deleteCommentOnPost 7 2 cPost).2) (by rfl)
  exact ⟨pre, c, suf, h1, h2, h3, h4, by rfl, by decide⟩

/-- C2: delete-comment answers 404 when no comment carries `commId`,
and 401 when the found comment's author differs from the principal —
even when the principal owns the post; in both cases the post is
returned unchanged. -/
theorem deleteComment_failure_cases (uid commId : Nat) (p : Post) :
    ((∀ c ∈ p.comments, c.id ≠ commId) →
      deleteCommentOnPost uid commId p =
        (.err 404 "Comment does not Exist.", p)) ∧
    (∀ c, p.comments.find? (fun c => c.id == commId) = some c →
      c.user ≠ uid →
      deleteCommentOnPost uid commId p =
        (.err 401 "User not Authorized.", p)) := by
  constructor
  · intro hall
    have hnone : p.comments.find? (fun c => c.id == commId) = none :=
      List.find?_eq_none.mpr (fun c hc => by simpa using hall c hc)
    unfold deleteCommentOnPost
    rw [hnone]
  · intro c hfind hne
    simp only [deleteCommentOnPost, hfind]
    rw [if_pos (by simpa using hne)]

/-- Witness for C2 at concrete inputs: principal 7 owns `cPost`; no
comment has id 99 (404), and comment 3 is authored by 9 ≠ 7 (401);
`cPost` is unchanged in both outcomes. -/
theorem deleteComment_failure_cases_witness :
    cPost.user = 7 ∧
    deleteCommentOnPost 7 99 cPost =
      (.err 404 "Comment does not Exist.", cPost) ∧
    deleteCommentOnPost 7 3 cPost =
      (.err 401 "User not Authorized.", cPost) := by
  refine ⟨rfl, ?_, ?_⟩
  · exact (deleteComment_failure_cases 7 99 cPost).1 (by decide)
  · exact (deleteComment_failure_cases 7 3 cPost).2
      { id := 3, text := "third", name := "B", avatar := "b", user := 9 }
      (by rfl) (by decide)

/-! ### C3, C4: like / unlike -/

/-- C3: liking an already-liked post answers Conflict (400, "Post is
already liked.") and leaves the post unchanged; otherwise the like is
inserted at the head and the updated `likes` collection is returned,
and a second like by the same user then answers Conflict with the
likes length stuck at the incremented value. -/
theorem like_spec (uid : Nat) (p : Post) :
    ((∃ l ∈ p.likes, l.user = uid) →
      likePost uid p = (.err 400 "Post is already liked.", p)) ∧
    ((∀ l ∈ p.likes, l.user ≠ uid) →
      likePost uid p =
        (.ok (⟨uid⟩ :: p.likes), { p with likes := ⟨uid⟩ :: p.likes })) ∧
    ((∀ l ∈ p.likes, l.user ≠ uid) →
      (likePost uid ((likePost uid p).2)).1 =
        .err 400 "Post is already liked." ∧
      ((likePost uid ((likePost uid p).2)).2).likes.length =
        p.likes.length + 1) := by
  have hpos : (∃ l ∈ p.likes, l.user = uid) →
      (p.likes.filter (fun l => l.user == uid)).length > 0 := by
    rintro ⟨l, hl, hu⟩
    exact List.length_pos.mpr
      (List.ne_nil_of_mem (List.mem_filter.mpr ⟨hl, by simp [hu]⟩))
  have hzero : (∀ l ∈ p.likes, l.user ≠ uid) →
      (p.likes.filter (fun l => l.user == uid)) = [] := by
    intro hall
    exact List.filter_eq_nil_iff.mpr (fun l hl => by simpa using hall l hl)
  have hfst : (∀ l ∈ p.likes, l.user ≠ uid) →
      likePost uid p =
        (.ok (⟨uid⟩ :: p.likes), { p with likes := ⟨uid⟩ :: p.likes }) := by
    intro hall
    unfold likePost
    rw [if_neg (by simp [hzero hall])]
  refine ⟨?_, hfst, ?_⟩
  · intro hex
    unfold likePost
    rw [if_pos (hpos hex)]
  · intro hall
    rw [hfst hall]
    have hsecond : likePost uid { p with likes := ⟨uid⟩ :: p.likes } =
        (.err 400 "Post is already liked.",
         { p with likes := ⟨uid⟩ :: p.likes }) := by
      unfold likePost
      rw [if_pos (by simp)]
    refine ⟨?_, ?_⟩
    · rw [hsecond]
    · rw [hsecond]
      simp

/-- Witness for C3: on `cPost` (no likes), user 5 likes once, a second
like answers Conflict, and the likes length stays at 1. -/
theorem like_spec_witness :
    likePost 5 cPost = (.ok [⟨5⟩], { cPost with likes := [⟨5⟩] }) ∧
    (likePost 5 ((likePost 5 cPost).2)).1 =
      .err 400 "Post is already liked." ∧
    ((likePost 5 ((likePost 5 cPost).2)).2).likes.length = 1 := by
  have h := like_spec 5 cPost
  refine ⟨h.2.1 (by decide), (h.2.2 (by decide)).1, ?_⟩
  have hlen := (h.2.2 (by decide)).2
  simpa using hlen

/-- Concrete post with likes by users 4, 5 and 4 again, for the unlike
scenarios. -/
def pLiked : Post :=
  { id := 200, text := "liked", name := "C", avatar := "c", user := 4
    date := 0
    likes := [⟨4⟩, ⟨5⟩, ⟨4⟩]
    comments := [] }

/-- C4: unliking a post the principal never liked answers Conflict
(400, "Post is not liked yet.") and leaves the likes unchanged;
otherwise exactly the first like entry with the principal's user id is
removed and the updated `likes` collection is returned. -/
theorem unlike_spec (uid : Nat) (p : Post) :
    ((∀ l ∈ p.likes, l.user ≠ uid) →
      unlikePost uid p = (.err 400 "Post is not liked yet.", p)) ∧
    ((∃ l ∈ p.likes, l.user = uid) →
      ∃ pre x suf, p.likes = pre ++ x :: suf ∧ (∀ b ∈ pre, b.user ≠ uid) ∧
        x.user = uid ∧
        unlikePost uid p =
          (.ok (pre ++ suf), { p with likes := pre ++ suf })) := by
  constructor
  · intro hall
    have hzero : (p.likes.filter (fun l => l.user == uid)) = [] :=
      List.filter_eq_nil_iff.mpr (fun l hl => by simpa using hall l hl)
    unfold unlikePost
    rw [if_pos (by simp [hzero])]
  · intro hex
    obtain ⟨pre, x, suf, hl, hpre, hx, herase⟩ :=
      eraseIdx_indexOf_spine (fun l => l.user) uid p.likes hex
    refine ⟨pre, x, suf, hl, hpre, hx, ?_⟩
    have hpos : (p.likes.filter (fun l => l.user == uid)).length > 0 := by
      obtain ⟨l, hlm, hu⟩ := hex
      exact List.length_pos.mpr
        (List.ne_nil_of_mem (List.mem_filter.mpr ⟨hlm, by simp [hu]⟩))
    unfold unlikePost
    rw [if_neg (by simp [Nat.pos_iff_ne_zero.mp hpos])]
    simp only [herase]

/-- Witness for C4 on `pLiked` (likes by 4, 5, 4): user 9 gets
Conflict; user 4 removes exactly the first of their two likes. -/
theorem unlike_spec_witness :
    unlikePost 9 pLiked = (.err 400 "Post is not liked yet.", pLiked) ∧
    (∃ pre x suf, pLiked.likes = pre ++ x :: suf ∧
      (∀ b ∈ pre, b.user ≠ 4) ∧ x.user = 4 ∧
      unlikePost 4 pLiked =
        (.ok (pre ++ suf), { pLiked with likes := pre ++ suf })) :=
  ⟨(unlike_spec 9 pLiked).1 (by decide), (unlike_spec 4 pLiked).2 (by decide)⟩

/-! ### C5, C10: post lookup and deletion -/

/-- An invalid identifier or an id matching no stored post makes
`findById` end in a cast error or in `null`. -/
theorem findById_none (db : List Post) (i : Ident)
    (h : i.valid = false ∨ ∀ p ∈ db, p.id ≠ i.val) :
    findById db i = .castError ∨ findById db i = .missing := by
  unfold findById
  rcases h with h | h
  · rw [if_neg (by simp [h])]
    left
    rfl
  · by_cases hv : i.valid = true
    · rw [if_pos hv]
      have hnone : db.find? (fun q => q.id == i.val) = none :=
        List.find?_eq_none.mpr (fun q hq => by simpa using h q hq)
      rw [hnone]
      right
      rfl
    · rw [if_neg hv]
      left
      rfl

/-- When `findById` finds a post, the identifier was valid and `find?`
located that post. -/
theorem findById_found_elim (db : List Post) (i : Ident) (p : Post)
    (h : findById db i = .found p) :
    i.valid = true ∧ db.find? (fun q => q.id == i.val) = some p := by
  unfold findById at h
  by_cases hv : i.valid = true
  · rw [if_pos hv] at h
    cases hf : db.find? (fun q => q.id == i.val) with
    | none =>
      rw [hf] at h
      exact absurd h (by simp)
    | some q =>
      rw [hf] at h
      cases h
      exact ⟨hv, rfl⟩
  · rw [if_neg hv] at h
    exact absurd h (by simp)

/-- With pairwise-distinct post ids, erasing the post with id `v`
leaves no post with id `v`. -/
theorem find?_eraseP_of_nodup (db : List Post) (v : Nat)
    (hnd : (db.map Post.id).Nodup) :
    ∀ q ∈ db.eraseP (fun q => q.id == v), q.id ≠ v := by
  induction db with
  | nil => simp
  | cons a as ih =>
    rw [List.map_cons, List.nodup_cons] at hnd
    obtain ⟨hna, hnd2⟩ := hnd
    by_cases hav : a.id = v
    · intro q hq
      rw [List.eraseP_cons] at hq
      simp only [hav, beq_self_eq_true, cond_true] at hq
      intro hqv
      exact hna (hav ▸ hqv ▸ List.mem_map_of_mem Post.id hq)
    · intro q hq
      rw [List.eraseP_cons] at hq
      simp only [show (a.id == v) = false by simpa using hav, cond_false] at hq
      rcases List.mem_cons.mp hq with hq | hq
      · exact hq ▸ hav
      · exact ih hnd2 q hq

/-- C5: delete-post answers 404 for an absent or structurally invalid
id, 401 leaving the store untouched when the principal is not the
owner, and otherwise removes the post, after which get-post answers
404 for the same id. -/
theorem deletePost_spec (uid : Nat) (db : List Post) (i : Ident)
    (hnd : (db.map Post.id).Nodup) :
    ((i.valid = false ∨ ∀ p ∈ db, p.id ≠ i.val) →
      deletePostHandler uid db i = (.err 404 "Post not Found.", db)) ∧
    (∀ p, findById db i = .found p → p.user ≠ uid →
      deletePostHandler uid db i =
        (.err 401 "User not Authorized to Delete.", db)) ∧
    (∀ p, findById db i = .found p → p.user = uid →
      (deletePostHandler uid db i).1 = .ok "Post Removed." ∧
      getPostHandler (deletePostHandler uid db i).2 i =
        .err 404 "Post not Found.") := by
  refine ⟨?_, ?_, ?_⟩
  · intro h
    rcases findById_none db i h with hfb | hfb <;>
      simp [deletePostHandler, hfb]
  · intro p hfound huser
    simp only [deletePostHandler, hfound]
    rw [if_pos (by simpa using huser)]
  · intro p hfound huser
    obtain ⟨hv, hf⟩ := findById_found_elim db i p hfound
    have hpid : p.id = i.val := by simpa using List.find?_some hf
    have hdel : deletePostHandler uid db i =
        (.ok "Post Removed.", db.eraseP (fun q => q.id == p.id)) := by
      simp only [deletePostHandler, hfound]
      rw [if_neg (by simp [huser])]
    rw [hdel]
    refine ⟨rfl, ?_⟩
    show getPostHandler (db.eraseP (fun q => q.id == p.id)) i = _
    have hnone : (db.eraseP (fun q => q.id == p.id)).find?
        (fun q => q.id == i.val) = none :=
      List.find?_eq_none.mpr (fun q hq => by
        have hne := find?_eraseP_of_nodup db p.id hnd q hq
        simpa using hpid ▸ hne)
    unfold getPostHandler findById
    rw [if_pos hv, hnone]

/-- Concrete two-post store: post 1 owned by 7, post 2 owned by 8. -/
def cDb : List Post :=
  [ { id := 1, text := "one", name := "A", avatar := "a", user := 7
      date := 0, likes := [], comments := [] }
  , { id := 2, text := "two", name := "B", avatar := "b", user := 8
      date := 1, likes := [], comments := [] } ]

/-- Witness for C5 on `cDb`: 404 for the invalid id and the absent id
99, 401 for principal 9 on post 1 (store untouched), and owner 7
deletes post 1, after which get-post on it answers 404. -/
theorem deletePost_spec_witness :
    deletePostHandler 7 cDb ⟨false, 1⟩ = (.err 404 "Post not Found.", cDb) ∧
    deletePostHandler 7 cDb ⟨true, 99⟩ = (.err 404 "Post not Found.", cDb) ∧
    deletePostHandler 9 cDb ⟨true, 1⟩ =
      (.err 401 "User not Authorized to Delete.", cDb) ∧
    (deletePostHandler 7 cDb ⟨true, 1⟩).1 = .ok "Post Removed." ∧
    getPostHandler (deletePostHandler 7 cDb ⟨true, 1⟩).2 ⟨true, 1⟩ =
      .err 404 "Post not Found." := by
  have h1 := (deletePost_spec 7 cDb ⟨false, 1⟩ (by decide)).1 (Or.inl rfl)
  have h2 := (deletePost_spec 7 cDb ⟨true, 99⟩ (by decide)).1
    (Or.inr (by decide))
  have h3 := (deletePost_spec 9 cDb ⟨true, 1⟩ (by decide)).2.1
    { id := 1, text := "one", name := "A", avatar := "a", user := 7
      date := 0, likes := [], comments := [] } (by rfl) (by decide)
  have h4 := (deletePost_spec 7 cDb ⟨true, 1⟩ (by decide)).2.2
    { id := 1, text := "one", name := "A", avatar := "a", user := 7
      date := 0, likes := [], comments := [] } (by rfl) (by decide)
  exact ⟨h1, h2, h3, h4.1, h4.2⟩

/-- C10: on an absent or structurally invalid post id, like and unlike
answer the generic 500 response (never 404) and leave the store
unchanged, while get-post and delete-post answer 404 for that same id. -/
theorem missingPost_like_unlike_500 (uid : Nat) (db : List Post) (i : Ident)
    (h : i.valid = false ∨ ∀ p ∈ db, p.id ≠ i.val) :
    (likeHandler uid db i).1 = .err 500 "Server Error." ∧
    (unlikeHandler uid db i).1 = .err 500 "Server Error." ∧
    (likeHandler uid db i).2 = db ∧
    (unlikeHandler uid db i).2 = db ∧
    getPostHandler db i = .err 404 "Post not Found." ∧
    (deletePostHandler uid db i).1 = .err 404 "Post not Found." := by
  rcases findById_none db i h with hfb | hfb <;>
    exact ⟨by simp [likeHandler, hfb], by simp [unlikeHandler, hfb],
      by simp [likeHandler, hfb], by simp [unlikeHandler, hfb],
      by simp [getPostHandler, hfb], by simp [deletePostHandler, hfb]⟩

/-- Witness for C10 on `cDb` with the absent id 99 and an invalid id:
like/unlike answer 500 and get-post/delete-post answer 404. -/
theorem missingPost_like_unlike_500_witness :
    (likeHandler 7 cDb ⟨true, 99⟩).1 = .err 500 "Server Error." ∧
    (unlikeHandler 7 cDb ⟨true, 99⟩).1 = .err 500 "Server Error." ∧
    (likeHandler 7 cDb ⟨true, 99⟩).2 = cDb ∧
    (unlikeHandler 7 cDb ⟨true, 99⟩).2 = cDb ∧
    getPostHandler cDb ⟨true, 99⟩ = .err 404 "Post not Found." ∧
    (deletePostHandler 7 cDb ⟨true, 99⟩).1 = .err 404 "Post not Found." ∧
    (likeHandler 7 cDb ⟨false, 1⟩).1 = .err 500 "Server Error." := by
  have h1 := missingPost_like_unlike_500 7 cDb ⟨true, 99⟩ (Or.inr (by decide))
  have h2 := missingPost_like_unlike_500 7 cDb ⟨false, 1⟩ (Or.inl rfl)
  exact ⟨h1.1, h1.2.1, h1.2.2.1, h1.2.2.2.1, h1.2.2.2.2.1, h1.2.2.2.2.2,
    h2.1⟩

/-! ### C6, C7, C8: profile upsert -/

/-- `updateFirst` does not touch the prefix when no prefix element
matches. -/
theorem updateFirst_append_not {α : Type} (p : α → Bool) (f : α → α)
    (l1 l2 : List α) (h : ∀ a ∈ l1, p a = false) :
    updateFirst p f (l1 ++ l2) = l1 ++ updateFirst p f l2 := by
  induction l1 with
  | nil => rfl
  | cons a as ih =>
    rw [List.cons_append, updateFirst, if_neg (by simp [h a (by simp)])]
    rw [ih (fun b hb => h b (List.mem_cons_of_mem a hb)), List.cons_append]

/-- `find?` skips a prefix in which it finds nothing. -/
theorem find?_append_of_none {α : Type} (p : α → Bool) (l1 l2 : List α)
    (h : l1.find? p = none) : (l1 ++ l2).find? p = l2.find? p := by
  induction l1 with
  | nil => rfl
  | cons a as ih =>
    rw [List.find?_cons] at h
    cases hp : p a with
    | true => rw [hp] at h; exact absurd h (by simp)
    | false =>
      rw [hp] at h
      rw [List.cons_append, List.find?_cons, hp]
      exact ih h

/-- Replacing the first match by another match keeps the match count. -/
theorem countP_updateFirst {α : Type} (p : α → Bool) (f : α → α)
    (hf : ∀ a, p a = true → p (f a) = true) (l : List α) :
    (updateFirst p f l).countP p = l.countP p := by
  induction l with
  | nil => rfl
  | cons a as ih =>
    by_cases hp : p a = true
    · rw [updateFirst, if_pos hp, List.countP_cons_of_pos _ _ (hf a hp),
        List.countP_cons_of_pos _ _ hp]
    · rw [updateFirst, if_neg hp]
      have hp2 : ¬p a = true := hp
      rw [List.countP_cons_of_neg _ _ hp2, List.countP_cons_of_neg _ _ hp2,
        ih]

/-- A concrete stored profile owned by user 1, with every optional field
and two social links set, and one prior experience entry. -/
def cProf : Profile :=
  { user := 1, company := some "Acme", website := some "acme.io"
    location := some "BR", bio := some "hi", status := some "dev"
    githubusername := some "gh", skills := ["js"]
    social := { youtube := some "y", facebook := some "f", twitter := none
                instagram := none, linkedin := none }
    experience :=
      [ { id := 9, title := "Old", company := "X", location := none
          fromDate := "2019", toDate := none, current := none
          description := none } ] }

/-- A minimal update body: only the required `status` and `skills` are
present; every optional field, social links included, is absent. -/
def cBodyMinimal : ProfileBody :=
  { company := none, website := none, location := none, bio := none
    status := some "dev2", githubusername := none, skills := some "js,go"
    youtube := none, facebook := none, twitter := none, instagram := none
    linkedin := none }

/-- Counterexample for C6 at a concrete input: `cProf` stores
`social.youtube = "y"`; upserting `cBodyMinimal` (which omits
`youtube`) clears it to absent instead of retaining it, because the
handler always assigns a fresh `social` object into `profileFields`. -/
theorem upsert_social_cleared_cex :
    cProf.social.youtube = some "y" ∧
    cBodyMinimal.youtube = none ∧
    ((upsertProfile 1 cBodyMinimal [cProf]).2.map
      (fun p => p.social.youtube)) = [none] :=
  ⟨rfl, rfl, rfl⟩

/-- C6 amended: on update, absent top-level optional fields (company,
website, location, bio, githubusername) retain their previous values,
but the `social` sub-record is overwritten wholesale, so each social
sub-field absent from the input is cleared rather than retained. -/
theorem upsert_partial_update (uid : Nat) (b : ProfileBody)
    (prof : Profile) (profiles : List Profile)
    (hfind : profiles.find? (fun p => p.user == uid) = some prof)
    (hst : truthy b.status = true) (hsk : truthy b.skills = true) :
    (upsertProfile uid b profiles).1 =
      .ok (applySet prof (buildProfileFields uid b)) ∧
    (truthy b.company = false →
      (applySet prof (buildProfileFields uid b)).company = prof.company) ∧
    (truthy b.website = false →
      (applySet prof (buildProfileFields uid b)).website = prof.website) ∧
    (truthy b.location = false →
      (applySet prof (buildProfileFields uid b)).location = prof.location) ∧
    (truthy b.bio = false →
      (applySet prof (buildProfileFields uid b)).bio = prof.bio) ∧
    (truthy b.githubusername = false →
      (applySet prof (buildProfileFields uid b)).githubusername =
        prof.githubusername) ∧
    (truthy b.youtube = false →
      (applySet prof (buildProfileFields uid b)).social.youtube = none) ∧
    (truthy b.facebook = false →
      (applySet prof (buildProfileFields uid b)).social.facebook = none) ∧
    (truthy b.twitter = false →
      (applySet prof (buildProfileFields uid b)).social.twitter = none) ∧
    (truthy b.instagram = false →
      (applySet prof (buildProfileFields uid b)).social.instagram = none) ∧
    (truthy b.linkedin = false →
      (applySet prof (buildProfileFields uid b)).social.linkedin = none) := by
  refine ⟨?_, ?_, ?_, ?_, ?_, ?_, ?_, ?_, ?_, ?_, ?_⟩
  · simp only [upsertProfile, hfind]
    rw [if_neg (by simp [hst, hsk])]
  all_goals intro h
  all_goals simp [applySet, buildProfileFields, h]

/-- Witness for C6 (amended) at `cProf`/`cBodyMinimal`: the absent
`company` survives the update while the absent `youtube` is cleared. -/
theorem upsert_partial_update_witness :
    (upsertProfile 1 cBodyMinimal [cProf]).1 =
      .ok (applySet cProf (buildProfileFields 1 cBodyMinimal)) ∧
    (applySet cProf (buildProfileFields 1 cBodyMinimal)).company =
      cProf.company ∧
    (applySet cProf (buildProfileFields 1 cBodyMinimal)).social.youtube =
      none := by
  have h := upsert_partial_update 1 cBodyMinimal cProf [cProf] rfl rfl rfl
  exact ⟨h.1, h.2.1 rfl, h.2.2.2.2.2.2.1 rfl⟩

/-- C7: upsert preserves "at most one Profile per user", and a second
upsert for the same principal mutates the document the first one
created instead of adding another. -/
theorem upsert_at_most_one (uid : Nat) (b : ProfileBody)
    (profiles : List Profile)
    (h : profiles.countP (fun p => p.user == uid) ≤ 1) :
    (upsertProfile uid b profiles).2.countP (fun p => p.user == uid) ≤ 1 ∧
    (profiles.countP (fun p => p.user == uid) = 0 →
      truthy b.status = true → truthy b.skills = true →
      ∀ b2, truthy b2.status = true → truthy b2.skills = true →
        (upsertProfile uid b2 (upsertProfile uid b profiles).2).2 =
          profiles ++
            [applySet (createProfile (buildProfileFields uid b))
              (buildProfileFields uid b2)]) := by
  constructor
  · by_cases hval : (!(truthy b.status) || !(truthy b.skills)) = true
    · rw [upsertProfile, if_pos hval]
      exact h
    · rw [upsertProfile, if_neg hval]
      cases hfind : profiles.find? (fun p => p.user == uid) with
      | some prof =>
        simp only
        rw [countP_updateFirst (fun p => p.user == uid)
          (fun p => applySet p (buildProfileFields uid b))
          (fun a _ => by simp [applySet, buildProfileFields]) profiles]
        exact h
      | none =>
        simp only
        have h0 : profiles.countP (fun p => p.user == uid) = 0 :=
          List.countP_eq_zero.mpr
            (fun a ha => by simpa using List.find?_eq_none.mp hfind a ha)
        rw [List.countP_append, h0,
          List.countP_cons_of_pos _ _ (by simp [createProfile,
            buildProfileFields])]
        simp
  · intro h0 hst hsk b2 hst2 hsk2
    have hnomatch : ∀ a ∈ profiles, ((fun p => p.user == uid) a) = false :=
      fun a ha => by
        simpa using List.countP_eq_zero.mp h0 a ha
    have hfind1 : profiles.find? (fun p => p.user == uid) = none :=
      List.find?_eq_none.mpr (fun a ha => by simp [hnomatch a ha])
    have hstep1 : (upsertProfile uid b profiles).2 =
        profiles ++ [createProfile (buildProfileFields uid b)] := by
      rw [upsertProfile, if_neg (by simp [hst, hsk])]
      simp only [hfind1]
    rw [hstep1]
    have hcreated : ((fun p => p.user == uid)
        (createProfile (buildProfileFields uid b))) = true := by
      simp [createProfile, buildProfileFields]
    have hfind2 : (profiles ++
        [createProfile (buildProfileFields uid b)]).find?
          (fun p => p.user == uid) =
        some (createProfile (buildProfileFields uid b)) := by
      rw [find?_append_of_none _ _ _
        (List.find?_eq_none.mpr (fun a ha => by simp [hnomatch a ha]))]
      simp [List.find?_cons, createProfile, buildProfileFields]
    rw [upsertProfile, if_neg (by simp [hst2, hsk2])]
    simp only [hfind2]
    rw [updateFirst_append_not _ _ _ _ hnomatch, updateFirst,
      if_pos hcreated]

/-- A second update body, used as the second upsert call of the C7
witness. -/
def cBody2 : ProfileBody :=
  { company := some "NewCo", website := none, location := none, bio := none
    status := some "senior", githubusername := none, skills := some "go"
    youtube := none, facebook := none, twitter := none, instagram := none
    linkedin := none }

/-- Witness for C7: from an empty store, two upserts by user 1 leave a
single document — the created one, mutated by the second call. -/
theorem upsert_at_most_one_witness :
    (upsertProfile 1 cBodyMinimal []).2.countP (fun p => p.user == 1) ≤ 1 ∧
    (upsertProfile 1 cBody2 (upsertProfile 1 cBodyMinimal []).2).2 =
      [applySet (createProfile (buildProfileFields 1 cBodyMinimal))
        (buildProfileFields 1 cBody2)] := by
  have h := upsert_at_most_one 1 cBodyMinimal [] (by decide)
  exact ⟨h.1, by simpa using h.2 rfl rfl rfl cBody2 rfl rfl⟩

/-- C8: the stored skills are the input split on commas with each piece
trimmed, in order. -/
theorem upsert_skills_normalized (uid : Nat) (b : ProfileBody)
    (profiles : List Profile) (s : String)
    (hs : b.skills = some s) (hne : s ≠ "") (hst : truthy b.status = true) :
    ∃ p2, (upsertProfile uid b profiles).1 = .ok p2 ∧
      p2.skills = (splitComma s.data []).map
        (fun cs => String.mk (trimChars cs)) := by
  have hsk : truthy b.skills = true := by simp [truthy, hs, hne]
  rw [upsertProfile, if_neg (by simp [hst, hsk])]
  cases hfind : profiles.find? (fun p => p.user == uid) with
  | some prof =>
    refine ⟨applySet prof (buildProfileFields uid b), rfl, ?_⟩
    simp [applySet, buildProfileFields, hs, normalizeSkills, hne]
  | none =>
    refine ⟨createProfile (buildProfileFields uid b), rfl, ?_⟩
    simp [createProfile, buildProfileFields, hs, normalizeSkills, hne]

/-- Body carrying the spec's concrete skills example. -/
def cBodySkills : ProfileBody :=
  { company := none, website := none, location := none, bio := none
    status := some "dev", githubusername := none
    skills := some "node, react , css"
    youtube := none, facebook := none, twitter := none, instagram := none
    linkedin := none }

/-- Witness for C8: the input "node, react , css" is stored as the
ordered sequence ["node", "react", "css"]. -/
theorem upsert_skills_normalized_witness :
    ∃ p2, (upsertProfile 3 cBodySkills []).1 = .ok p2 ∧
      p2.skills = ["node", "react", "css"] := by
  obtain ⟨p2, h1, h2⟩ := upsert_skills_normalized 3 cBodySkills []
    "node, react , css" rfl (by decide) rfl
  exact ⟨p2, h1, h2.trans (by decide)⟩

/-! ### C9: experience insertion -/

/-- C9: a valid experience entry is inserted at index 0 of the
principal's `experience`; all previous entries keep their order at
indices 1 and above. -/
theorem addExperience_head (uid : Nat) (b : ExperienceBody) (newId : Nat)
    (profiles : List Profile) (prof : Profile)
    (hfind : profiles.find? (fun p => p.user == uid) = some prof)
    (ht : truthy b.title = true) (hc : truthy b.company = true)
    (hfr : truthy b.fromDate = true) :
    ∃ prof2, (addExperienceHandler uid b newId profiles).1 = .ok prof2 ∧
      prof2.experience.length = prof.experience.length + 1 ∧
      prof2.experience.head? = some
        { id := newId, title := b.title.getD "", company := b.company.getD ""
          location := b.location, fromDate := b.fromDate.getD ""
          toDate := b.toDate, current := b.current
          description := b.description } ∧
      prof2.experience.tail = prof.experience := by
  simp only [addExperienceHandler, hfind]
  rw [if_neg (by simp [ht, hc, hfr])]
  exact ⟨_, rfl, by simp, rfl, rfl⟩

/-- A valid experience body for the C9 witness. -/
def cExpBody : ExperienceBody :=
  { title := some "Dev", company := some "Acme", location := none
    fromDate := some "2020", toDate := none, current := none
    description := none }

/-- Witness for C9 on `cProf` (one prior entry): the new entry lands at
index 0 and the prior entry follows it unchanged. -/
theorem addExperience_head_witness :
    ∃ prof2, (addExperienceHandler 1 cExpBody 42 [cProf]).1 = .ok prof2 ∧
      prof2.experience.length = cProf.experience.length + 1 ∧
      prof2.experience.head? = some
        { id := 42, title := "Dev", company := "Acme", location := none
          fromDate := "2020", toDate := none, current := none
          description := none } ∧
      prof2.experience.tail = cProf.experience := by
  obtain ⟨p2, h1, h2, h3, h4⟩ := addExperience_head 1 cExpBody 42 [cProf]
    cProf rfl rfl rfl rfl
  exact ⟨p2, h1, h2, by simpa using h3, h4⟩

end DevMedia
